import Mathlib

/-!
Verification of the incremental behavior predictor of this repository.

The development shallowly embeds the two predictor implementations:

* `OnlineBehaviorPredictor` (src/realtime_predictions/services/online_predictor.py):
  online learning via `MultinomialNB.partial_fit`, a `MinMaxScaler`, and a
  bounded `deque` memory buffer;
* `RealtimeBehaviorPredictor` (src/realtime_predictions/services/predictor.py):
  batch mode, retrained from scratch by `train_model`.

Modelling conventions:

* An observation (journal entry) is modelled with the `timestamp` key always
  present (the spec's data model marks the timestamp as required), as an
  integer number of seconds since the Unix epoch; `action` and
  `duration_minutes` are optional, `Option.none` covering both a missing key
  and a pandas `NaN` value (the code treats the two identically for duration,
  and both lead to a failed learn for the action, see `extract_features`).
* Python floats are modelled by exact rationals `ℚ`; the probability
  computations of `MultinomialNB` (log-space in sklearn) are modelled exactly
  in `ℝ`, with `Real.rpow` for the θ^x factors.
* `pandas.sort_values` and Python's `sorted` are modelled by the stable
  `List.insertionSort`.
* File persistence (`save_model`/`load_model`) is I/O and is not modelled;
  states are those reachable from `initialState` (the constructor with no
  saved model found).
-/

namespace RPred

attribute [local semireducible] Rat.add Rat.sub Rat.mul Rat.inv

/-- One journal entry, as consumed by the predictors.  `timestamp` is seconds
since the Unix epoch (pandas datetimes are timezone-naive integers at this
granularity); `action` and `duration_minutes` are `none` when the key is
absent or the value is `NaN`. -/
structure Entry where
  timestamp : Int
  action : Option String
  duration_minutes : Option ℚ
deriving DecidableEq, Repr

instance : Inhabited Entry := ⟨⟨0, none, none⟩⟩

deriving instance DecidableEq for Except

/-- The static `self.action_categories` of both predictor classes: an ordered
mapping from category name to keyword list (Python dicts preserve insertion
order, so iteration order is the priority order). -/
def action_categories : List (String × List String) :=
  [("Sleep", ["Sleep", "nap", "sleeping", "rest"]),
   ("Work", ["Work", "work", "job", "office", "meeting"]),
   ("Study", ["Homework", "study", "School", "class", "learning", "research"]),
   ("Exercise", ["Workout", "exercise", "gym", "running", "fitness"]),
   ("Social", ["Friends and family", "social", "friends", "family", "hanging out"]),
   ("Personal", ["Duties", "personal", "chores", "shower", "eating", "cooking"]),
   ("Entertainment", ["Waste", "entertainment", "gaming", "watching", "fun"]),
   ("Mindfulness", ["Meditate REAL", "meditation", "mindfulness", "reflection"]),
   ("Career", ["internship 2026", "career", "job search", "networking", "resume"])]

/-- The class universe `self.all_classes = list(self.action_categories.keys()) + ['Other']`. -/
def all_classes : List String := action_categories.map (fun p => p.1) ++ ["Other"]

/-- Python's substring test `needle in hay` on lists of characters. -/
def containsSub (needle : List Char) : List Char → Bool
  | [] => needle.isEmpty
  | c :: rest => needle.isPrefixOf (c :: rest) || containsSub needle rest

/-- Python's `str.lower()` as a character list (per-character lowering; the
keywords and actions at play are ASCII, where this agrees with
`String.toLower`, whose well-founded recursion the kernel cannot unfold). -/
def lowerChars (s : String) : List Char := s.toList.map Char.toLower

/-- One keyword test of `categorize_action`:
`keyword.lower() in action_lower`. -/
def keywordHits (action_lower : List Char) (kw : String) : Bool :=
  containsSub (lowerChars kw) action_lower

/-- The method `OnlineBehaviorPredictor.categorize_action` (identical in both classes):
lower-case the action, return the first category one of whose keywords is a
substring, else `'Other'`. -/
def categorize_action (action : String) : String :=
  let action_lower := lowerChars action
  match action_categories.find? (fun p => p.2.any (fun kw => keywordHits action_lower kw)) with
  | some p => p.1
  | none => "Other"

/-- Stable ascending sort of entries by timestamp, modelling
`df.sort_values('timestamp')` (both in `extract_features` and in
`bulk_learn`). -/
def sortByTs (entries : List Entry) : List Entry :=
  entries.insertionSort (fun a b => a.timestamp ≤ b.timestamp)

/-- Python's `lst[-n:]`: the last `n` elements (all of them when the list is
shorter). -/
def takeLast (n : Nat) (l : List Entry) : List Entry :=
  l.drop (l.length - n)

/-- The deque push `collections.deque(maxlen=cap).append`: append on the right, evicting from
the left whatever exceeds the capacity. -/
def memPush (cap : Nat) (m : List Entry) (e : Entry) : List Entry :=
  let m2 := m ++ [e]
  m2.drop (m2.length - cap)

/-- The two failure modes of `extract_features`: the explicit
`ValueError("No entries provided")`, and the `AttributeError` raised by
`categorize_action` when the `action` column exists but the value of the row
being categorized is `NaN` (a float has no `.lower()`). -/
inductive FeatureError where
  | noEntries
  | nanAction
deriving DecidableEq, Repr

/-- The `pandas.Timestamp.hour` of an epoch-second timestamp. -/
def hourOf (t : Int) : Int := (t.ediv 3600).emod 24

/-- The `pandas.Timestamp.dayofweek` (Monday = 0) of an epoch-second timestamp;
1970-01-01 was a Thursday (= 3). -/
def dayOfWeek (t : Int) : Int := ((t.ediv 86400) + 3).emod 7

/-- The method `OnlineBehaviorPredictor.extract_features`.  Sorts the window by
timestamp, derives the 14 scalar features of the last entry plus the one-hot
encoding of the previous entry's category over `all_classes`, and the training
target (`None` exactly when no entry of the window carries an `action` key, so
that the DataFrame has no `action` column).  A `NaN` action in a row that is
read (the previous row, then the last row) raises. -/
def extract_features (entries : List Entry) :
    Except FeatureError (List ℚ × Option String) :=
  if entries.isEmpty then .error .noEntries
  else
    let hasAction := entries.any (fun e => e.action.isSome)
    let sorted := sortByTs entries
    let cur := sorted.getLastD default
    let hour : Int := hourOf cur.timestamp
    let day_of_week : Int := dayOfWeek cur.timestamp
    let is_weekend : ℚ := if day_of_week = 5 ∨ day_of_week = 6 then 1 else 0
    let is_morning : ℚ := if 6 ≤ hour ∧ hour < 12 then 1 else 0
    let is_afternoon : ℚ := if 12 ≤ hour ∧ hour < 18 then 1 else 0
    let is_evening : ℚ := if 18 ≤ hour ∧ hour < 22 then 1 else 0
    let is_night : ℚ := if 22 ≤ hour ∨ hour < 6 then 1 else 0
    let duration : ℚ := cur.duration_minutes.getD 0
    let is_short : ℚ := if duration < 30 then 1 else 0
    let is_medium : ℚ := if 30 ≤ duration ∧ duration < 120 then 1 else 0
    let is_long : ℚ := if 120 ≤ duration then 1 else 0
    let prevData : Except FeatureError (String × ℚ × Int × ℚ) :=
      if 1 < sorted.length then
        let prev := sorted.getD (sorted.length - 2) default
        let pa : Except FeatureError String :=
          if hasAction then
            match prev.action with
            | some a => .ok (categorize_action a)
            | none => .error .nanAction
          else .ok (categorize_action "Unknown")
        pa.map (fun c =>
          (c, prev.duration_minutes.getD 0, hourOf prev.timestamp,
            ((cur.timestamp - prev.timestamp : Int) : ℚ) / 3600))
      else .ok ("Unknown", 0, 0, 0)
    match prevData with
    | .error e => .error e
    | .ok (prev_action0, prev_duration, prev_hour, time_gap) =>
      let prev_action := if prev_action0 ∈ all_classes then prev_action0 else "Other"
      let prev_action_encoded : List ℚ :=
        all_classes.map (fun cat => if cat = prev_action then 1 else 0)
      let features : List ℚ :=
        [(hour : ℚ), (day_of_week : ℚ), is_weekend, is_morning, is_afternoon,
         is_evening, is_night, duration, is_short, is_medium, is_long,
         prev_duration, (prev_hour : ℚ), time_gap] ++ prev_action_encoded
      let target : Except FeatureError (Option String) :=
        if hasAction then
          match cur.action with
          | some a => .ok (some (categorize_action a))
          | none => .error .nanAction
        else .ok none
      target.map (fun t => (features, t))

/-- Lexicographic (code-point) strict comparison of character lists: the order
`numpy.unique` sorts string arrays by.  (Spelled out structurally; core's
`String.ltb` iterator loop is opaque to the kernel.) -/
def charListLt : List Char → List Char → Bool
  | [], [] => false
  | [], _ :: _ => true
  | _ :: _, [] => false
  | a :: as, b :: bs => if a < b then true else if b < a then false else charListLt as bs

/-- The sorted deduplication `numpy.unique` on a list of strings (as used by sklearn's
`_check_partial_fit_first_call`/`unique_labels` to fix `classes_` on the
first `partial_fit`): the distinct values in lexicographically sorted
order. -/
def insUnique (s : String) : List String → List String
  | [] => [s]
  | t :: ts =>
    if s = t then t :: ts
    else if charListLt s.toList t.toList then s :: t :: ts
    else t :: insUnique s ts

/-- See `insUnique`. -/
def npUnique (l : List String) : List String := l.foldr insUnique []

/-- The learned state of a fitted `MultinomialNB`: for each class of
`classes_` (in order) the class name, `class_count_` entry and
`feature_count_` row.  Keeping the three sklearn arrays as one list of triples
makes their index alignment structural. -/
structure Mnb where
  data : List (String × ℚ × List ℚ)
deriving DecidableEq, Repr

/-- The `classes_` array of a fitted model. -/
def mnbClasses (m : Mnb) : List String := m.data.map (fun t => t.1)

/-- The online update `MultinomialNB.partial_fit(X=[x], y=[y], classes=classes)`: on the first
call the class universe is fixed to `np.unique(classes)` with zeroed counts;
every call then adds 1 to `class_count_[y]` and adds `x` to
`feature_count_[y]`. -/
def mnbUpdateFit (m : Option Mnb) (x : List ℚ) (y : String) (classes : List String) : Mnb :=
  let m0 : Mnb :=
    match m with
    | some mm => mm
    | none => ⟨(npUnique classes).map (fun c => (c, 0, List.replicate x.length 0))⟩
  ⟨m0.data.map (fun t =>
    if t.1 = y then (t.1, t.2.1 + 1, List.zipWith (· + ·) t.2.2 x) else t)⟩

/-- The absolute value `numpy.abs` on an exact rational (the `np.abs(features_scaled)` step;
spelled out so that the kernel can evaluate it). -/
def npAbs (q : ℚ) : ℚ := if q < 0 then -q else q

/-- The transform of `MinMaxScaler(feature_range=(0,1))` after a fit on the single
row `ref` (the only way the scaler is ever fitted in `learn_from_entry`): the
per-feature range is degenerate, `_handle_zeros_in_scale` replaces the zero
range by 1, so `scale_ = 1`, `min_ = -ref`, and the transform is `x - ref`
componentwise. -/
def minMaxTransformSingle (ref x : List ℚ) : List ℚ :=
  List.zipWith (fun xi ri => xi - ri) x ref

/-- Mutable state of an `OnlineBehaviorPredictor` instance (the fields touched
by learn/predict/reset; `action_categories` and `all_classes` are the
constructor constants above, and the model file path plays no role without
I/O). `scaler = some ref` models a `MinMaxScaler` fitted on the single row
`ref`; `none` is an unfitted scaler. -/
structure OnlineState where
  model : Option Mnb
  model_trained : Bool
  scaler : Option (List ℚ)
  memory : List Entry
  memory_size : Nat
  total_entries_learned : Nat
  predictions_made : Nat
deriving DecidableEq, Repr

/-- The constructor state (no saved model found on disk). -/
def initialState (memory_size : Nat) : OnlineState :=
  ⟨none, false, none, [], memory_size, 0, 0⟩

/-- The method `OnlineBehaviorPredictor.reset`. -/
def reset (st : OnlineState) : OnlineState :=
  { st with model := none, model_trained := false, memory := [],
            total_entries_learned := 0, predictions_made := 0, scaler := none }

/-- The method `OnlineBehaviorPredictor.learn_from_entry`.  The whole body is inside
`try/except`, so the function returns a success flag and never raises; the
entry is appended to the memory deque before anything can fail. -/
def learn_from_entry (st : OnlineState) (entry : Entry) : Bool × OnlineState :=
  let st1 := { st with memory := memPush st.memory_size st.memory entry }
  if st1.memory.length < 1 then (false, st1)
  else
    let recent_entries := takeLast 10 st1.memory
    match extract_features recent_entries with
    | .error _ => (false, st1)
    | .ok (_, none) => (false, st1)
    | .ok (features, some target_action) =>
      let st2 := if st1.total_entries_learned = 0
                 then { st1 with scaler := some features } else st1
      match st2.scaler with
      | none => (false, st2)
      | some ref =>
        let features_scaled := (minMaxTransformSingle ref features).map npAbs
        let model := mnbUpdateFit st2.model features_scaled target_action all_classes
        (true, { st2 with model := some model, model_trained := true,
                          total_entries_learned := st2.total_entries_learned + 1 })

/-- The unnormalized probability mass sklearn's `MultinomialNB` assigns to one
class: `exp(jll) = P(c) · ∏ᵢ θ_{c,i}^{x_i}` with prior `class_count_[c]/N`
and Laplace-smoothed `θ_{c,i} = (feature_count_[c][i]+α)/(Σᵢ feature_count_[c][i]+α·n)`,
`α = 1` (the defaults).  sklearn works with float logarithms; this is the same
quantity computed exactly in `ℝ` (a zero prior yields score 0, matching
`log 0 = -inf`). -/
noncomputable def mnbClassScore (total count : ℚ) (fc : List ℚ) (x : List ℚ) : ℝ :=
  let den : ℚ := fc.sum + (fc.length : ℚ)
  ((count / total : ℚ) : ℝ) *
    ((List.zip fc x).map (fun p => ((((p.1 + 1) / den : ℚ)) : ℝ) ^ ((p.2 : ℚ) : ℝ))).prod

/-- The per-class scores of `predict_proba`/`predict` before normalization,
aligned with `classes_`. -/
noncomputable def mnbScores (m : Mnb) (x : List ℚ) : List ℝ :=
  let total : ℚ := (m.data.map (fun t => t.2.1)).sum
  m.data.map (fun t => mnbClassScore total t.2.1 t.2.2 x)

/-- The index `numpy.argmax` returns: the first maximal element. -/
noncomputable def argmaxIdx (l : List ℝ) : Nat :=
  (l.enum.foldl (fun best p => if best.2 < p.2 then p else best) (0, l.headD 0)).1

/-- The maximum `max(probabilities)` of a numpy row. -/
noncomputable def maxR : List ℝ → ℝ
  | [] => 0
  | h :: t => t.foldl max h

/-- Python's
`sorted(zip(classes, probabilities), key=lambda x: x[1], reverse=True)`:
a stable descending sort on the probability component (Timsort is stable;
with `reverse=True` elements with equal keys keep their original relative
order). -/
noncomputable def sortDesc (l : List (String × ℝ)) : List (String × ℝ) :=
  l.insertionSort (fun a b => b.2 ≤ a.2)

/-- The dictionary returned by `predict_next_entry` (minus the wall-clock
`timestamp` string, which carries no predictor state). -/
structure Prediction where
  predicted_action : String
  confidence : ℝ
  top_predictions : List (String × ℝ)
  total_learned : Nat
  predictions_made : Nat

/-- The failure modes of `predict_next_entry` (all surfaced to the caller as
raised `ValueError`s / sklearn errors, none of them mutating the engine). -/
inductive PredictError where
  | modelNotTrained
  | noMemory
  | emptyWindow
  | nanAction
  | scalerNotFitted
  | modelMissing
deriving DecidableEq, Repr

/-- The computable front part of `predict_next_entry`: resolve the context
window (the explicit argument, else the last 10 memory entries), extract
features, and scale them (`scaler.transform` then `np.abs`). -/
def predict_scaled (st : OnlineState) (recent? : Option (List Entry)) :
    Except PredictError (List ℚ) := do
  let recent ← match recent? with
    | none =>
      if st.memory.length = 0 then throw .noMemory
      else pure (takeLast 10 st.memory)
    | some l => pure l
  let fe ← match extract_features recent with
    | .error .noEntries => throw .emptyWindow
    | .error .nanAction => throw .nanAction
    | .ok r => pure r
  match st.scaler with
  | none => throw .scalerNotFitted
  | some ref => pure ((minMaxTransformSingle ref fe.1).map npAbs)

/-- The method `OnlineBehaviorPredictor.predict_next_entry`.  Raises before touching any
state when the model is untrained or the inputs are unusable; on success
increments `predictions_made` and reports the argmax class, the maximal
probability as confidence, and the top 3 of the stably descending-sorted
`zip(classes_, probabilities)`. -/
noncomputable def predict_next_entry (st : OnlineState) (recent? : Option (List Entry)) :
    Except PredictError Prediction × OnlineState :=
  if st.model_trained = false then (.error .modelNotTrained, st)
  else
    match predict_scaled st recent? with
    | .error e => (.error e, st)
    | .ok x =>
      match st.model with
      | none => (.error .modelMissing, st)
      | some m =>
        let scores := mnbScores m x
        let probabilities := scores.map (fun s => s / scores.sum)
        let classes := mnbClasses m
        let prediction := classes.getD (argmaxIdx scores) ""
        let top_predictions := (sortDesc (classes.zip probabilities)).take 3
        let st2 := { st with predictions_made := st.predictions_made + 1 }
        (.ok { predicted_action := prediction,
               confidence := maxR probabilities,
               top_predictions := top_predictions,
               total_learned := st.total_entries_learned,
               predictions_made := st2.predictions_made }, st2)

/-- The sequential one-by-one learning process the spec compares `bulk_learn`
against: call `learn_from_entry` on each element in order, counting the calls
that return `True`. -/
def seq_learn : OnlineState → List Entry → Nat × OnlineState
  | st, [] => (0, st)
  | st, e :: es =>
    let r := learn_from_entry st e
    let rest := seq_learn r.2 es
    ((if r.1 then 1 else 0) + rest.1, rest.2)

/-- The method `OnlineBehaviorPredictor.bulk_learn`.  On an empty input the
`pd.DataFrame(entries)` has no columns at all, so `df.sort_values('timestamp')`
raises `KeyError: 'timestamp'` (none of the timestamp-column branches fire);
with our entries always carrying a timestamp, a nonempty input always has the
column.  Otherwise: sort by timestamp, run `learn_from_entry` on each record
in order, and return the number of successful learns. -/
def bulk_learn (st : OnlineState) (entries : List Entry) :
    Except String (Nat × OnlineState) :=
  if entries.isEmpty then .error "KeyError: timestamp"
  else
    let sorted_entries := sortByTs entries
    .ok (sorted_entries.foldl
      (fun acc entry =>
        let r := learn_from_entry acc.2 entry
        (if r.1 then acc.1 + 1 else acc.1, r.2))
      (0, st))

/-- The method `OnlineBehaviorPredictor.get_stats`. -/
def get_stats (st : OnlineState) : Bool × Nat × Nat × Nat × Nat :=
  (st.model_trained, st.total_entries_learned, st.predictions_made,
   st.memory.length, st.memory_size)

/-! ## Batch mode: `RealtimeBehaviorPredictor` (services/predictor.py) -/

/-- The learned parameters of the batch `RandomForestClassifier`.
`train_model` fits `RandomForestClassifier(random_state=42, ...)` on the
features prepared from the loaded history, so the fitted parameters are a
deterministic function of that history; we model them by their defining
input. -/
structure BatchModel where
  trainedOn : List Entry
deriving DecidableEq, Repr

/-- Mutable state of a `RealtimeBehaviorPredictor` (the fields its learn/train
paths touch: the fitted model, the `LabelEncoder`s — modelled by their sorted
`classes_` list per feature name — and `feature_columns`). -/
structure BatchState where
  model : Option BatchModel
  encoders : List (String × List String)
  feature_columns : List String
deriving DecidableEq, Repr

/-- The 16 feature columns `prepare_features` selects (all always present). -/
def batchFeatureColumns : List String :=
  ["hour", "day_of_week", "is_weekend", "is_morning", "is_afternoon",
   "is_evening", "is_night", "duration_minutes", "is_short_activity",
   "is_medium_activity", "is_long_activity", "prev_duration", "prev_hour",
   "time_gap_hours", "action_category_encoded", "prev_action_encoded"]

/-- One pass of the encoder loop of `prepare_features` for one categorical
feature: fit a fresh `LabelEncoder` (classes = sorted unique values) when the
feature has no encoder yet; otherwise map unseen values to `'Unknown'` and
`transform`, which raises when `'Unknown'` itself is not a known class. -/
def encoderFitOrTransform (encoders : List (String × List String))
    (feature : String) (values : List String) :
    Except String (List (String × List String)) :=
  match encoders.lookup feature with
  | none => .ok ((feature, npUnique values) :: encoders)
  | some classes =>
    let values2 := values.map (fun v => if v ∈ classes then v else "Unknown")
    if values2.all (fun v => v ∈ classes) then .ok encoders
    else .error "y contains previously unseen labels"

/-- The state effect and failure conditions of
`RealtimeBehaviorPredictor.prepare_features` (including
`create_temporal_features`).  The numeric matrix it returns is consumed by
`train_model`/`predict` but is discarded unused by `learn_from_entry`, so only
the state effect matters here.  Failure order follows the source: an empty
input produces a DataFrame without a timestamp column
(`ValueError: No timestamp column found!`); `df['action'].shift(1)` raises
`KeyError` when no entry has an action; `df['action'].apply(categorize_action)`
raises on a `NaN` action; then the two encoders are processed in
`['action_category', 'prev_action']` order (a raise leaves the updates made so
far in place). -/
def batch_prepare_effect (st : BatchState) (entries : List Entry) :
    Except String Unit × BatchState :=
  if entries.isEmpty then (.error "No timestamp column found!", st)
  else if ¬ entries.any (fun e => e.action.isSome) then (.error "KeyError: action", st)
  else if entries.any (fun e => e.action.isNone) then
    (.error "float object has no attribute lower", st)
  else
    let sorted := sortByTs entries
    let actions := sorted.map (fun e => e.action.getD "")
    let cats := actions.map categorize_action
    let prevs := "Unknown" :: actions.dropLast
    match encoderFitOrTransform st.encoders "action_category" cats with
    | .error e => (.error e, st)
    | .ok enc1 =>
      match encoderFitOrTransform enc1 "prev_action" prevs with
      | .error e => (.error e, { st with encoders := enc1 })
      | .ok enc2 =>
        (.ok (), { st with encoders := enc2, feature_columns := batchFeatureColumns })

/-- The method `RealtimeBehaviorPredictor.learn_from_entry`.  Raises when no model is
trained; otherwise prepares features for `recent_entries + [new_entry]` (whose
only lasting effects are on the encoders/feature columns), stores nothing
else, leaves the classifier untouched, and returns `True`. -/
def batch_learn_from_entry (st : BatchState) (new_entry : Entry)
    (recent_entries : List Entry) : Except String Bool × BatchState :=
  if st.model.isNone then (.error "Model not trained! Train the model first.", st)
  else
    match batch_prepare_effect st (recent_entries ++ [new_entry]) with
    | (.error e, st2) => (.error e, st2)
    | (.ok _, st2) => (.ok true, st2)

/-- The method `RealtimeBehaviorPredictor.train_model` with the CSV contents passed as a
parameter (the file read is I/O): prepare features over the whole history and
replace the fitted model. -/
def batch_train_model (st : BatchState) (entries : List Entry) :
    Except String BatchState :=
  match batch_prepare_effect st entries with
  | (.error e, _) => .error e
  | (.ok _, st2) => .ok { st2 with model := some ⟨entries⟩ }

/-! ## Concrete runs used as witnesses and counterexamples -/

/-- Learn a whole list of entries one at a time, keeping only the state. -/
def learnAll (st : OnlineState) (l : List Entry) : OnlineState :=
  l.foldl (fun s e => (learn_from_entry s e).2) st

/-- An 8-hour sleep entry at the epoch. -/
def eWork : Entry := ⟨0, some "Work", some 480⟩

/-- A study entry 8 hours later. -/
def eStudy : Entry := ⟨28800, some "study", some 30⟩

/-- An entry with no action key (its learn fails softly). -/
def eNoAction : Entry := ⟨3600, none, some 15⟩

/-- The engine after learning `eWork` then `eStudy` from scratch: `Work` and
`Study` each hold one sample, the scaler is fitted on `eWork`'s features. -/
def stTwo : OnlineState :=
  (learn_from_entry (learn_from_entry (initialState 1000) eWork).2 eStudy).2

/-- A list of 1001 distinct observations for the capacity scenario of the memory
buffer. -/
def scenarioEntries : List Entry :=
  (List.range 1001).map (fun (i : Nat) => ⟨(i : Int), some "Sleep", some 1⟩)

/-- A batch-mode engine holding a (trivially) trained model. -/
def stBatch : BatchState := ⟨some ⟨[]⟩, [], []⟩

/-- The scaled features the second learn feeds the classifier: the
componentwise `|f₂ - f₁|` of the two windows' feature vectors. -/
def x2C : List ℚ :=
  [8, 0, 0, 1, 0, 0, 1, 450, 0, 1, 1, 480, 0, 8, 0, 1, 0, 0, 0, 0, 0, 0, 0, 1]

/-- The classifier state inside `stTwo`: classes in `np.unique` (sorted)
order, one `Work` sample (scaled to the zero vector) and one `Study`
sample. -/
def mnbTwo : Mnb :=
  ⟨[("Career", 0, List.replicate 24 0),
    ("Entertainment", 0, List.replicate 24 0),
    ("Exercise", 0, List.replicate 24 0),
    ("Mindfulness", 0, List.replicate 24 0),
    ("Other", 0, List.replicate 24 0),
    ("Personal", 0, List.replicate 24 0),
    ("Sleep", 0, List.replicate 24 0),
    ("Social", 0, List.replicate 24 0),
    ("Study", 1, x2C),
    ("Work", 1, List.replicate 24 0)]⟩

/-- The state `stTwo` after one prediction. -/
def stTwoAfter : OnlineState :=
  { stTwo with predictions_made := stTwo.predictions_made + 1 }

/-- The prediction `stTwo` produces on the window `[eWork]` (whose scaled
features are the zero vector, so every fitted class scores its prior):
`Study` and `Work` tie at probability 1/2, and the stable descending sort
orders the tie by the **sorted** class list — `Study` before `Work`. -/
noncomputable def predC6 : Prediction :=
  { predicted_action := "Study"
    confidence := (1 : ℝ) / 2
    top_predictions := [("Study", (1 : ℝ) / 2), ("Work", (1 : ℝ) / 2), ("Career", 0)]
    total_learned := 2
    predictions_made := 1 }

/-! ## Helper lemmas -/

instance : IsTotal Entry (fun a b => a.timestamp ≤ b.timestamp) :=
  ⟨fun a b => Int.le_total a.timestamp b.timestamp⟩

instance : IsTrans Entry (fun a b => a.timestamp ≤ b.timestamp) :=
  ⟨fun _ _ _ => Int.le_trans⟩

lemma learn_memory (st : OnlineState) (e : Entry) :
    (learn_from_entry st e).2.memory = memPush st.memory_size st.memory e := by
  simp only [learn_from_entry]
  repeat' split
  all_goals rfl

lemma learn_memory_size (st : OnlineState) (e : Entry) :
    (learn_from_entry st e).2.memory_size = st.memory_size := by
  simp only [learn_from_entry]
  repeat' split
  all_goals rfl

lemma learn_cases (st : OnlineState) (e : Entry) :
    ((learn_from_entry st e).1 = true ∧
      (learn_from_entry st e).2.total_entries_learned = st.total_entries_learned + 1) ∨
    ((learn_from_entry st e).1 = false ∧
      (learn_from_entry st e).2.total_entries_learned = st.total_entries_learned) := by
  simp only [learn_from_entry]
  repeat' split
  all_goals simp

lemma learn_total_of_true (st : OnlineState) (e : Entry)
    (h : (learn_from_entry st e).1 = true) :
    (learn_from_entry st e).2.total_entries_learned = st.total_entries_learned + 1 := by
  rcases learn_cases st e with ⟨_, h2⟩ | ⟨h1, _⟩
  · exact h2
  · rw [h1] at h; exact absurd h (by simp)

lemma learn_total_of_false (st : OnlineState) (e : Entry)
    (h : (learn_from_entry st e).1 = false) :
    (learn_from_entry st e).2.total_entries_learned = st.total_entries_learned := by
  rcases learn_cases st e with ⟨h1, _⟩ | ⟨_, h2⟩
  · rw [h1] at h; exact absurd h (by simp)
  · exact h2

lemma memPush_length (cap : Nat) (m : List Entry) (e : Entry)
    (h : m.length ≤ cap) :
    (memPush cap m e).length = min (m.length + 1) cap := by
  simp only [memPush, List.length_drop, List.length_append, List.length_cons,
    List.length_nil]
  omega

lemma mem_memPush (cap : Nat) (m : List Entry) (e : Entry) (h : 0 < cap) :
    e ∈ memPush cap m e := by
  unfold memPush
  have hk : (m ++ [e]).length - cap ≤ m.length := by
    simp only [List.length_append, List.length_cons, List.length_nil]
    omega
  rw [List.drop_append_of_le_length hk]
  exact List.mem_append_right _ (List.mem_singleton.mpr rfl)

lemma learn_scaler_of_ne (st : OnlineState) (e : Entry)
    (h : st.total_entries_learned ≠ 0) :
    (learn_from_entry st e).2.scaler = st.scaler := by
  simp only [learn_from_entry]
  repeat' split
  all_goals simp_all

lemma predict_scaler (st : OnlineState) (w : Option (List Entry)) :
    (predict_next_entry st w).2.scaler = st.scaler := by
  simp only [predict_next_entry]
  repeat' split
  all_goals rfl

lemma categorize_action_total (a : String) : categorize_action a ∈ all_classes := by
  have hdef : categorize_action a =
      match action_categories.find?
        (fun p => p.2.any (fun kw => keywordHits (lowerChars a) kw)) with
      | some p => p.1
      | none => "Other" := rfl
  rcases h : action_categories.find?
      (fun p => p.2.any (fun kw => keywordHits (lowerChars a) kw)) with _ | p
  · rw [hdef, h]
    exact List.mem_append_right _ (List.mem_singleton.mpr rfl)
  · rw [hdef, h]
    have hp := List.mem_of_find?_eq_some h
    exact List.mem_append_left _ (List.mem_map_of_mem _ hp)

/-! ## The claims -/

/-- Claim C2 (counterexample): the keyword `"Homework"` is listed under the
category `Study`, but `categorize_action "Homework"` returns `"Work"` (the
substring `"work"` matches the earlier category `Work`), so the
keyword-round-trip part of the claim is false. -/
theorem categorize_keyword_counterexample :
    ("Study", ["Homework", "study", "School", "class", "learning", "research"])
        ∈ action_categories ∧
    "Homework" ∈ ["Homework", "study", "School", "class", "learning", "research"] ∧
    categorize_action "Homework" = "Work" ∧ ("Work" : String) ≠ "Study" := by
  refine ⟨by decide, by decide, by decide, by decide⟩

/-- Claim C2 (amended): `categorize_action` is deterministic and total with
values in the fixed category set (including `Other`); every listed keyword
maps back to its own category **except** the four keywords that contain a
keyword of an earlier category as a substring — `"Homework"`, `"Workout"`,
`"job search"` and `"networking"` — which map to `Work`. -/
theorem categorize_action_spec :
    (∀ a : String, categorize_action a = categorize_action a) ∧
    (∀ a : String, categorize_action a ∈ all_classes) ∧
    (∀ p ∈ action_categories, ∀ kw ∈ p.2,
      kw ∉ (["Homework", "Workout", "job search", "networking"] : List String) →
      categorize_action kw = p.1) ∧
    (∀ kw ∈ (["Homework", "Workout", "job search", "networking"] : List String),
      categorize_action kw = "Work") :=
  ⟨fun _ => rfl, categorize_action_total, by decide, by decide⟩

/-- Claim C2 witness: the keyword `"nap"` of `Sleep` round-trips. -/
theorem categorize_action_spec_witness :
    categorize_action "nap" = "Sleep" :=
  categorize_action_spec.2.2.1
    ("Sleep", ["Sleep", "nap", "sleeping", "rest"]) (by decide)
    "nap" (by decide) (by decide)

/-- Claim C3 (counterexample): on a single-entry window the previous-category
one-hot block (the last 10 features) is **not** all-zero: the `Other` bit is
set (the code maps the placeholder previous action `'Unknown'` to `'Other'`
before one-hot encoding). -/
theorem single_window_one_hot_counterexample :
    (extract_features [⟨0, some "Sleep", some 480⟩]).map (fun r => r.1.drop 14)
      = .ok [0, 0, 0, 0, 0, 0, 0, 0, 0, 1] ∧
    ([0, 0, 0, 0, 0, 0, 0, 0, 0, 1] : List ℚ) ≠ List.replicate 10 0 := by
  exact ⟨by decide, by decide⟩

/-- Claim C3 (amended): for every window of exactly one observation,
`extract_features` zero-fills the previous-observation scalar features
(previous duration, previous hour, time gap — positions 11, 12, 13) and emits
a previous-category one-hot with exactly the `Other` bit set (the absent
previous action is treated as unrecognized and mapped to `Other`). -/
theorem single_window_features (e : Entry) :
    (extract_features [e]).map (fun r => (r.1.drop 11, r.2))
      = .ok (([0, 0, 0] : List ℚ)
              ++ all_classes.map (fun cat => if cat = "Other" then (1 : ℚ) else 0),
             e.action.map categorize_action) := by
  have hU : ¬ ("Unknown" ∈ all_classes) := by decide
  rcases e with ⟨ts, a, d⟩
  cases a <;>
    simp [extract_features, sortByTs, List.insertionSort, Except.map, hU]

/-- Claim C5: predicting while the model is untrained raises the
model-not-trained error before touching any state: the error is returned to
the caller and the engine state is exactly what it was. -/
theorem predict_untrained (st : OnlineState) (w : Option (List Entry))
    (h : st.model_trained = false) :
    predict_next_entry st w = (.error .modelNotTrained, st) := by
  simp [predict_next_entry, h]

/-- Claim C5 witness: the fresh engine. -/
theorem predict_untrained_witness :
    (initialState 1000).model_trained = false ∧
    predict_next_entry (initialState 1000) none
      = (.error .modelNotTrained, initialState 1000) :=
  ⟨rfl, predict_untrained (initialState 1000) none rfl⟩

/-- Claim C8: `learn_from_entry` never raises — it is a total function into a
success flag (the whole Python body is wrapped in `try/except`) — and on
success the learned-entries counter grows by exactly 1 while on soft failure
it is unchanged. -/
theorem learn_soft_failure (st : OnlineState) (e : Entry) :
    ((learn_from_entry st e).1 = true →
      (learn_from_entry st e).2.total_entries_learned = st.total_entries_learned + 1) ∧
    ((learn_from_entry st e).1 = false →
      (learn_from_entry st e).2.total_entries_learned = st.total_entries_learned) :=
  ⟨learn_total_of_true st e, learn_total_of_false st e⟩

/-- Claim C8 witness: a successful learn and a failing learn. -/
theorem learn_soft_failure_witness :
    ((learn_from_entry (initialState 1000) eWork).1 = true ∧
      (learn_from_entry (initialState 1000) eWork).2.total_entries_learned = 1) ∧
    ((learn_from_entry (initialState 1000) eNoAction).1 = false ∧
      (learn_from_entry (initialState 1000) eNoAction).2.total_entries_learned = 0) :=
  ⟨⟨by decide, (learn_soft_failure (initialState 1000) eWork).1 (by decide)⟩,
   ⟨by decide, (learn_soft_failure (initialState 1000) eNoAction).2 (by decide)⟩⟩

/-- Claim C10: `learn_from_entry` is not atomic on failure: the entry is
pushed to the memory buffer before feature extraction, so a soft-failing call
still leaves the entry in the buffer, the buffer grown by one (up to
capacity), while the learned-entries counter is unchanged. -/
theorem learn_failure_not_atomic (st : OnlineState) (e : Entry)
    (hcap : 0 < st.memory_size) (hlen : st.memory.length ≤ st.memory_size)
    (hfail : (learn_from_entry st e).1 = false) :
    (learn_from_entry st e).2.memory = memPush st.memory_size st.memory e ∧
    e ∈ (learn_from_entry st e).2.memory ∧
    (learn_from_entry st e).2.memory.length = min (st.memory.length + 1) st.memory_size ∧
    (learn_from_entry st e).2.total_entries_learned = st.total_entries_learned := by
  refine ⟨learn_memory st e, ?_, ?_, learn_total_of_false st e hfail⟩
  · rw [learn_memory]; exact mem_memPush _ _ _ hcap
  · rw [learn_memory]; exact memPush_length _ _ _ hlen

/-- Claim C10 witness: learning an action-less entry from the fresh engine
fails yet stores the entry. -/
theorem learn_failure_not_atomic_witness :
    (learn_from_entry (initialState 1000) eNoAction).1 = false ∧
    eNoAction ∈ (learn_from_entry (initialState 1000) eNoAction).2.memory ∧
    (learn_from_entry (initialState 1000) eNoAction).2.memory.length = 1 :=
  ⟨by decide,
   (learn_failure_not_atomic (initialState 1000) eNoAction (by decide) (by decide)
      (by decide)).2.1,
   by
     have h := (learn_failure_not_atomic (initialState 1000) eNoAction (by decide)
       (by decide) (by decide)).2.2.1
     simpa using h⟩

/-- Claim C4: the scaler's fitted parameters are only ever written under the
`total_entries_learned == 0` gate, so once any entry has been learned, neither
`learn_from_entry` nor `predict_next_entry` changes them. -/
theorem scaler_fitted_once (st : OnlineState) (e : Entry) (w : Option (List Entry))
    (h : 0 < st.total_entries_learned) :
    (learn_from_entry st e).2.scaler = st.scaler ∧
    (predict_next_entry st w).2.scaler = st.scaler :=
  ⟨learn_scaler_of_ne st e (by omega), predict_scaler st w⟩

/-- Claim C4 witness: the two-entry engine has learned 2 entries; a further
learn or predict keeps the scaler. -/
theorem scaler_fitted_once_witness :
    0 < stTwo.total_entries_learned ∧
    (learn_from_entry stTwo eNoAction).2.scaler = stTwo.scaler ∧
    (predict_next_entry stTwo none).2.scaler = stTwo.scaler :=
  ⟨by decide, (scaler_fitted_once stTwo eNoAction none (by decide)).1,
   (scaler_fitted_once stTwo eNoAction none (by decide)).2⟩

lemma seq_learn_foldl (l : List Entry) : ∀ (st : OnlineState) (c : Nat),
    l.foldl (fun acc entry =>
      let r := learn_from_entry acc.2 entry
      (if r.1 then acc.1 + 1 else acc.1, r.2)) (c, st)
      = (c + (seq_learn st l).1, (seq_learn st l).2) := by
  induction l with
  | nil => intro st c; simp [seq_learn]
  | cons e es ih =>
    intro st c
    simp only [List.foldl_cons, seq_learn]
    rw [ih]
    cases h : (learn_from_entry st e).1
    · simp [h, Prod.ext_iff]
    · simp [h, Prod.ext_iff]
      omega

lemma foldl_memPush (cap : Nat) (l : List Entry) : ∀ (m : List Entry), m.length ≤ cap →
    l.foldl (memPush cap) m = (m ++ l).drop (m.length + l.length - cap) := by
  induction l with
  | nil =>
    intro m hm
    simp [Nat.sub_eq_zero_of_le hm]
  | cons e es ih =>
    intro m hm
    have hlen : (memPush cap m e).length = m.length + 1 - (m.length + 1 - cap) := by
      simp only [memPush, List.length_drop, List.length_append, List.length_cons,
        List.length_nil]
    have hle : (memPush cap m e).length ≤ cap := by omega
    rw [List.foldl_cons, ih (memPush cap m e) hle]
    have hd0 : m.length + 1 - cap ≤ (m ++ [e]).length := by
      simp only [List.length_append, List.length_cons, List.length_nil]
      omega
    have hrw : memPush cap m e ++ es = ((m ++ [e]) ++ es).drop (m.length + 1 - cap) := by
      rw [List.drop_append_of_le_length hd0]
      simp only [memPush]
      have hix : (m ++ [e]).length - cap = m.length + 1 - cap := by
        simp only [List.length_append, List.length_cons, List.length_nil]
      rw [hix]
    rw [hrw, List.drop_drop]
    have hidx : m.length + 1 - cap + ((memPush cap m e).length + es.length - cap)
        = m.length + (e :: es).length - cap := by
      simp only [List.length_cons]
      omega
    rw [hidx, List.append_assoc, List.singleton_append]

lemma learnAll_memory (st : OnlineState) (l : List Entry) :
    (learnAll st l).memory = l.foldl (memPush st.memory_size) st.memory ∧
    (learnAll st l).memory_size = st.memory_size := by
  induction l generalizing st with
  | nil => exact ⟨rfl, rfl⟩
  | cons e es ih =>
    have h1 := learn_memory st e
    have h2 := learn_memory_size st e
    rcases ih ((learn_from_entry st e).2) with ⟨ha, hb⟩
    constructor
    · show (learnAll (learn_from_entry st e).2 es).memory = _
      rw [ha, h1, h2]
      rfl
    · show (learnAll (learn_from_entry st e).2 es).memory_size = _
      rw [hb, h2]

lemma batch_prepare_effect_model (st : BatchState) (l : List Entry) :
    ((batch_prepare_effect st l).2).model = st.model := by
  simp only [batch_prepare_effect]
  repeat' split
  all_goals rfl

lemma batch_learn_model (st : BatchState) (e : Entry) (recent : List Entry) :
    (batch_learn_from_entry st e recent).2.model = st.model := by
  have hp := batch_prepare_effect_model st (recent ++ [e])
  simp only [batch_learn_from_entry]
  split
  · rfl
  · split
    all_goals rename_i heq
    all_goals rw [heq] at hp
    all_goals exact hp

/-- Claim C1 (counterexample): on the empty list `bulk_learn` raises
(`pd.DataFrame([])` has no columns, so `sort_values('timestamp')` raises
`KeyError`) instead of returning the count 0 that one-by-one learning of the
(empty) sorted list yields. -/
theorem bulk_learn_empty_counterexample :
    bulk_learn (initialState 1000) [] = .error "KeyError: timestamp" ∧
    seq_learn (initialState 1000) (sortByTs []) = (0, initialState 1000) :=
  ⟨rfl, rfl⟩

/-- Claim C1 (amended): for every **nonempty** list of observations,
`bulk_learn` sorts it ascending by timestamp, runs `learn_from_entry`
sequentially over the sorted list, returns the number of successful learns,
and ends in exactly the state of the one-by-one sequential run — so any
subsequent predict agrees between the two runs.  (On the empty list the code
raises a `KeyError` instead.) -/
theorem bulk_learn_refines_sequential (st : OnlineState) (entries : List Entry)
    (h : entries ≠ []) :
    bulk_learn st entries = .ok (seq_learn st (sortByTs entries)) ∧
    (sortByTs entries).Pairwise (fun a b => a.timestamp ≤ b.timestamp) ∧
    (sortByTs entries).Perm entries ∧
    ∀ w, (bulk_learn st entries).map (fun r => (predict_next_entry r.2 w).1)
      = .ok (predict_next_entry (seq_learn st (sortByTs entries)).2 w).1 := by
  have hne : entries.isEmpty = false := by
    cases entries
    · exact absurd rfl h
    · rfl
  have h1 : bulk_learn st entries = .ok (seq_learn st (sortByTs entries)) := by
    simp only [bulk_learn, hne, Bool.false_eq_true, if_false]
    rw [seq_learn_foldl]
    simp
  refine ⟨h1, ?_, List.perm_insertionSort _ _, fun w => by rw [h1]; rfl⟩
  exact List.sorted_insertionSort _ _

/-- Claim C1 witness: two out-of-order entries. -/
theorem bulk_learn_refines_sequential_witness :
    ([eStudy, eWork] : List Entry) ≠ [] ∧
    bulk_learn (initialState 1000) [eStudy, eWork]
      = .ok (seq_learn (initialState 1000) (sortByTs [eStudy, eWork])) :=
  ⟨by decide,
   (bulk_learn_refines_sequential (initialState 1000) [eStudy, eWork] (by decide)).1⟩

/-- Claim C7: the memory buffer is a bounded FIFO: every learn pushes through
`memPush`; a push onto a full buffer evicts exactly the oldest element;
learning a list of entries from a fresh capacity-1000 engine leaves exactly
the last 1000 entries, in insertion order; in particular 1001 entries leave
`memory_size = 1000` with the first (oldest) observation evicted. -/
theorem memory_bounded_fifo :
    (∀ (st : OnlineState) (e : Entry),
      (learn_from_entry st e).2.memory = memPush st.memory_size st.memory e) ∧
    (∀ (cap : Nat) (m : List Entry) (e : Entry), m.length = cap → 0 < cap →
      memPush cap m e = m.tail ++ [e]) ∧
    (∀ l : List Entry,
      (learnAll (initialState 1000) l).memory = l.drop (l.length - 1000)) ∧
    ((learnAll (initialState 1000) scenarioEntries).memory.length = 1000 ∧
      (⟨(0 : Int), some "Sleep", some 1⟩ : Entry)
        ∉ (learnAll (initialState 1000) scenarioEntries).memory) := by
  have hdrop : ∀ l : List Entry,
      (learnAll (initialState 1000) l).memory = l.drop (l.length - 1000) := by
    intro l
    rcases learnAll_memory (initialState 1000) l with ⟨ha, _⟩
    rw [ha]
    have h2 := foldl_memPush 1000 l ([] : List Entry) (by simp)
    simpa [initialState] using h2
  have hlen : scenarioEntries.length = 1001 := by
    rw [scenarioEntries, List.length_map, List.length_range]
  have hsplit : scenarioEntries
      = (⟨(0 : Int), some "Sleep", some 1⟩ : Entry)
        :: (List.range 1000).map
            (fun i => (⟨((i + 1 : Nat) : Int), some "Sleep", some 1⟩ : Entry)) := by
    rw [scenarioEntries, show (1001 : Nat) = 1000 + 1 from rfl, List.range_succ_eq_map,
      List.map_cons, List.map_map]
    rfl
  refine ⟨learn_memory, ?_, hdrop, ?_, ?_⟩
  · intro cap m e hm hcap
    simp only [memPush]
    have h1 : (m ++ [e]).length - cap = 1 := by
      simp only [List.length_append, List.length_cons, List.length_nil]
      omega
    rw [h1, List.drop_append_of_le_length (by omega), List.drop_one]
  · rw [hdrop, hlen, List.length_drop, hlen]
  · rw [hdrop, hlen]
    intro hmem
    rw [show (1001 - 1000 : Nat) = 1 from rfl, hsplit, List.drop_one, List.tail_cons] at hmem
    rcases List.mem_map.mp hmem with ⟨i, _, hi⟩
    have ht := congrArg Entry.timestamp hi
    simp only at ht
    omega

/-- Claim C7 witness: a full single-slot buffer evicts its only (oldest)
element. -/
theorem memory_bounded_fifo_witness :
    memPush 1 [eWork] eStudy = [eStudy] := by
  have h := memory_bounded_fifo.2.1 1 [eWork] eStudy (by decide) (by decide)
  simpa using h

/-- Claim C9: in batch mode a learn call leaves the classifier's learned
parameters exactly as they were (the call only re-runs feature preparation,
whose result it discards, and reports success); only `train_model` installs a
new fitted model. -/
theorem batch_learn_frame (st : BatchState) (e : Entry) (recent : List Entry)
    (m : BatchModel) (hm : st.model = some m) :
    (batch_learn_from_entry st e recent).2.model = some m ∧
    (∀ b, (batch_learn_from_entry st e recent).1 = .ok b → b = true) ∧
    (∀ (data : List Entry) (st2 : BatchState),
      batch_train_model st data = .ok st2 → st2.model = some ⟨data⟩) := by
  refine ⟨by rw [batch_learn_model]; exact hm, ?_, ?_⟩
  · intro b hb
    simp only [batch_learn_from_entry] at hb
    split at hb
    · simp at hb
    · split at hb <;> simp_all
  · intro data st2 h2
    simp only [batch_train_model] at h2
    split at h2 <;> simp_all
    rw [← h2]

/-- Claim C9 witness: a trained batch engine keeps its model across a learn
call. -/
theorem batch_learn_frame_witness :
    stBatch.model = some ⟨[]⟩ ∧
    (batch_learn_from_entry stBatch eWork [eStudy]).2.model = some ⟨[]⟩ :=
  ⟨rfl, (batch_learn_frame stBatch eWork [eStudy] ⟨[]⟩ rfl).1⟩

/-! ## Lemmas about the prediction assembly (claim C6) -/

instance : IsTotal (String × ℝ) (fun a b => b.2 ≤ a.2) :=
  ⟨fun a b => (le_total b.2 a.2)⟩

instance : IsTrans (String × ℝ) (fun a b => b.2 ≤ a.2) :=
  ⟨fun _ _ _ hab hbc => le_trans hbc hab⟩

lemma prod_rpow_zero (den : ℚ) (fc : List ℚ) : ∀ n : Nat,
    ((List.zip fc (List.replicate n (0 : ℚ))).map
      (fun p => ((((p.1 + 1) / den : ℚ)) : ℝ) ^ ((p.2 : ℚ) : ℝ))).prod = 1 := by
  induction fc with
  | nil => intro n; simp
  | cons a l ih =>
    intro n
    cases n with
    | zero => simp
    | succ k =>
      simp only [List.replicate_succ, List.zip_cons_cons, List.map_cons, List.prod_cons,
        ih k, mul_one, Rat.cast_zero, Real.rpow_zero]

lemma mnbClassScore_zero (total count : ℚ) (fc : List ℚ) (n : Nat) :
    mnbClassScore total count fc (List.replicate n 0) = ((count / total : ℚ) : ℝ) := by
  simp only [mnbClassScore]
  rw [prod_rpow_zero, mul_one]

lemma mnbScores_zero (m : Mnb) (n : Nat) :
    mnbScores m (List.replicate n 0)
      = m.data.map (fun t => ((t.2.1 / (m.data.map (fun s => s.2.1)).sum : ℚ) : ℝ)) := by
  simp only [mnbScores]
  exact List.map_congr_left (fun t _ => mnbClassScore_zero _ _ _ _)

lemma seed_le_foldl_max (t : List ℝ) : ∀ a : ℝ, a ≤ t.foldl max a := by
  induction t with
  | nil => intro a; exact le_refl a
  | cons b t ih =>
    intro a
    calc a ≤ max a b := le_max_left a b
    _ ≤ (t.foldl max (max a b)) := ih (max a b)

lemma mem_le_foldl_max (t : List ℝ) : ∀ (a x : ℝ), x ∈ t → x ≤ t.foldl max a := by
  induction t with
  | nil => intro a x h; cases h
  | cons b t2 ih =>
    intro a x h
    simp only [List.foldl_cons]
    rcases List.mem_cons.mp h with rfl | h3
    · calc x ≤ max a x := le_max_right a x
      _ ≤ t2.foldl max (max a x) := seed_le_foldl_max t2 _
    · exact ih (max a b) x h3

lemma le_maxR (l : List ℝ) (x : ℝ) (h : x ∈ l) : x ≤ maxR l := by
  cases l with
  | nil => cases h
  | cons a t =>
    simp only [maxR]
    rcases List.mem_cons.mp h with rfl | h2
    · exact seed_le_foldl_max t x
    · exact mem_le_foldl_max t a x h2

lemma orderedInsert_pairwise_stable (f : String × ℝ → Nat) (p : String × ℝ) :
    ∀ l : List (String × ℝ),
    l.Pairwise (fun a b => b.2 < a.2 ∨ (b.2 = a.2 ∧ f a < f b)) →
    (∀ q ∈ l, f p < f q) →
    (List.orderedInsert (fun a b => b.2 ≤ a.2) p l).Pairwise
      (fun a b => b.2 < a.2 ∨ (b.2 = a.2 ∧ f a < f b)) := by
  intro l
  induction l with
  | nil =>
    intro _ _
    simp [List.orderedInsert_nil]
  | cons q qs ih =>
    intro hl hp
    rw [List.pairwise_cons] at hl
    obtain ⟨hq, hqs⟩ := hl
    rw [List.orderedInsert]
    split
    · -- q.2 ≤ p.2 : p goes in front, before the tied-or-smaller q
      next hle =>
      have hRpq : q.2 < p.2 ∨ (q.2 = p.2 ∧ f p < f q) := by
        rcases lt_or_eq_of_le hle with hlt | heq
        · exact Or.inl hlt
        · exact Or.inr ⟨heq, hp q (List.mem_cons_self q qs)⟩
      refine List.pairwise_cons.mpr ⟨?_, List.pairwise_cons.mpr ⟨hq, hqs⟩⟩
      intro x hx
      rcases List.mem_cons.mp hx with rfl | hxs
      · exact hRpq
      · have hqx := hq x hxs
        have hx_le_q : x.2 ≤ q.2 := by
          rcases hqx with hlt | ⟨heq, _⟩
          · exact le_of_lt hlt
          · exact le_of_eq heq
        rcases lt_or_eq_of_le (le_trans hx_le_q hle) with hlt | heq
        · exact Or.inl hlt
        · exact Or.inr ⟨heq, hp x (List.mem_cons.mpr (Or.inr hxs))⟩
    · -- ¬ q.2 ≤ p.2 : q stays in front of the inserted p
      next hgt =>
      have hplt : p.2 < q.2 := not_le.mp hgt
      refine List.pairwise_cons.mpr ⟨?_, ?_⟩
      · intro x hx
        rcases (List.mem_orderedInsert _).mp hx with rfl | hxs
        · exact Or.inl hplt
        · exact hq x hxs
      · exact ih hqs (fun x hx => hp x (List.mem_cons.mpr (Or.inr hx)))

lemma sortDesc_pairwise_stable (f : String × ℝ → Nat) :
    ∀ l : List (String × ℝ),
    l.Pairwise (fun a b => f a < f b) →
    (sortDesc l).Pairwise (fun a b => b.2 < a.2 ∨ (b.2 = a.2 ∧ f a < f b)) := by
  intro l
  induction l with
  | nil => intro _; simp [sortDesc, List.insertionSort]
  | cons p ps ih =>
    intro hl
    rw [List.pairwise_cons] at hl
    obtain ⟨hp, hps⟩ := hl
    show (List.orderedInsert _ p (List.insertionSort _ ps)).Pairwise _
    refine orderedInsert_pairwise_stable f p _ (ih hps) ?_
    intro q hq
    have hq2 : q ∈ ps := (List.perm_insertionSort _ ps).mem_iff.mp hq
    exact hp q hq2

lemma nodup_pairwise_idx (classes : List String) (h : classes.Nodup) :
    classes.Pairwise (fun a b => classes.indexOf a < classes.indexOf b) := by
  rw [List.pairwise_iff_get]
  intro i j hij
  rw [List.get_indexOf h i, List.get_indexOf h j]
  exact hij

lemma zip_pairwise_idx (classes : List String) (probs : List ℝ)
    (hlen : classes.length ≤ probs.length) (h : classes.Nodup) :
    (classes.zip probs).Pairwise
      (fun a b => classes.indexOf a.1 < classes.indexOf b.1) := by
  have h1 : (List.map Prod.fst (classes.zip probs)).Pairwise
      (fun a b => classes.indexOf a < classes.indexOf b) := by
    rw [List.map_fst_zip classes probs hlen]
    exact nodup_pairwise_idx classes h
  exact (@List.pairwise_map (String × ℝ) String Prod.fst
    (fun a b => List.indexOf a classes < List.indexOf b classes)
    (classes.zip probs)).mp h1

lemma scores_stTwo : mnbScores mnbTwo (List.replicate 24 0)
    = [0, 0, 0, 0, 0, 0, 0, 0, (1 : ℝ) / 2, (1 : ℝ) / 2] := by
  rw [mnbScores_zero]
  norm_num [mnbTwo, x2C]

lemma probs_stTwo :
    (mnbScores mnbTwo (List.replicate 24 0)).map
      (fun s => s / (mnbScores mnbTwo (List.replicate 24 0)).sum)
    = [0, 0, 0, 0, 0, 0, 0, 0, (1 : ℝ) / 2, (1 : ℝ) / 2] := by
  rw [scores_stTwo]
  norm_num

lemma argmax_stTwo :
    argmaxIdx [0, 0, 0, 0, 0, 0, 0, 0, (1 : ℝ) / 2, (1 : ℝ) / 2] = 8 := by
  norm_num [argmaxIdx, List.enum, List.enumFrom]

lemma sort_stTwo :
    sortDesc ((mnbClasses mnbTwo).zip
        [0, 0, 0, 0, 0, 0, 0, 0, (1 : ℝ) / 2, (1 : ℝ) / 2])
    = [("Study", (1 : ℝ) / 2), ("Work", (1 : ℝ) / 2), ("Career", 0),
       ("Entertainment", 0), ("Exercise", 0), ("Mindfulness", 0), ("Other", 0),
       ("Personal", 0), ("Sleep", 0), ("Social", 0)] := by
  norm_num [sortDesc, List.insertionSort, List.orderedInsert, mnbClasses, mnbTwo,
    x2C, List.zip, List.zipWith]

lemma max_stTwo :
    maxR [0, 0, 0, 0, 0, 0, 0, 0, (1 : ℝ) / 2, (1 : ℝ) / 2] = (1 : ℝ) / 2 := by
  norm_num [maxR, max_def]

/-- Full evaluation of the tie-producing prediction: after learning one `Work`
and one `Study` sample, predicting on the window `[eWork]` (scaled features =
zero vector) gives `Work` and `Study` probability 1/2 each, and the stable
sort puts `Study` (position 8 of the sorted classes) before `Work`
(position 9). -/
lemma predict_stTwo_eval :
    predict_next_entry stTwo (some [eWork]) = (.ok predC6, stTwoAfter) := by
  have hT : stTwo.model_trained = true := by decide
  have hs : predict_scaled stTwo (some [eWork]) = .ok (List.replicate 24 0) := by decide
  have hm : stTwo.model = some mnbTwo := by decide
  have hget : (mnbClasses mnbTwo).getD 8 "" = "Study" := by decide
  have htl : stTwo.total_entries_learned = 2 := by decide
  have hpm : stTwo.predictions_made = 0 := by decide
  simp only [predict_next_entry, hT, Bool.true_eq_false, if_false, hs, hm]
  rw [probs_stTwo, scores_stTwo, argmax_stTwo, hget, sort_stTwo, max_stTwo]
  simp [predC6, stTwoAfter, htl, hpm]
  exact ⟨hm.symm, hT⟩

/-- Claim C6 (amended): every prediction's `top_predictions` is the take-3 of
the stable descending sort of `zip(classes_, probabilities)`: it is sorted
descending by probability, has length `min 3 |classes_|`, ties are broken by
position in the model's class list `classes_` — the category names in
`np.unique`'s lexicographically sorted order, **not** the fixed category-set
insertion order — and `confidence` is the maximum probability across all
categories. -/
theorem predict_top_predictions_spec (st : OnlineState) (w : Option (List Entry))
    (pred : Prediction) (st2 : OnlineState) (m : Mnb)
    (hm : st.model = some m) (hnd : (mnbClasses m).Nodup)
    (h : predict_next_entry st w = (.ok pred, st2)) :
    ∃ probs : List ℝ,
      probs.length = (mnbClasses m).length ∧
      pred.top_predictions = (sortDesc ((mnbClasses m).zip probs)).take 3 ∧
      pred.confidence = maxR probs ∧
      pred.top_predictions.length = min 3 (mnbClasses m).length ∧
      pred.top_predictions.Pairwise (fun a b => b.2 ≤ a.2) ∧
      pred.top_predictions.Pairwise (fun a b =>
        a.2 = b.2 → (mnbClasses m).indexOf a.1 < (mnbClasses m).indexOf b.1) ∧
      ∀ p ∈ pred.top_predictions, p.2 ≤ pred.confidence := by
  simp only [predict_next_entry] at h
  by_cases hT : st.model_trained = false
  · rw [if_pos hT] at h
    exact absurd (congrArg Prod.fst h) (by simp)
  · rw [if_neg hT] at h
    cases hps : predict_scaled st w with
    | error e =>
      rw [hps] at h
      exact absurd (congrArg Prod.fst h) (by simp)
    | ok x =>
      rw [hps, hm] at h
      dsimp only at h
      rw [Prod.mk.injEq] at h
      obtain ⟨h1, _⟩ := h
      rw [Except.ok.injEq] at h1
      subst h1
      have hlenp : ((mnbScores m x).map
          (fun s => s / (mnbScores m x).sum)).length = (mnbClasses m).length := by
        simp [mnbScores, mnbClasses]
      refine ⟨(mnbScores m x).map (fun s => s / (mnbScores m x).sum),
        hlenp, rfl, rfl, ?_, ?_, ?_, ?_⟩
      · have hperm := List.perm_insertionSort
          (fun (a b : String × ℝ) => b.2 ≤ a.2)
          ((mnbClasses m).zip ((mnbScores m x).map (fun s => s / (mnbScores m x).sum)))
        dsimp only
        rw [List.length_take]
        simp only [sortDesc]
        rw [hperm.length_eq, List.length_zip, hlenp, min_self]
      · exact List.Pairwise.sublist (List.take_sublist 3 _)
          (List.sorted_insertionSort _ _)
      · have hzip := zip_pairwise_idx (mnbClasses m)
          ((mnbScores m x).map (fun s => s / (mnbScores m x).sum))
          (le_of_eq hlenp.symm) hnd
        have hsd := sortDesc_pairwise_stable
          (fun q => List.indexOf q.1 (mnbClasses m)) _ hzip
        have hptake := List.Pairwise.sublist (List.take_sublist 3 _) hsd
        refine hptake.imp ?_
        intro a b hab heq
        rcases hab with hlt | ⟨_, hidx⟩
        · exact absurd hlt (by rw [heq]; exact lt_irrefl _)
        · exact hidx
      · intro p hp
        have hp1 : p ∈ sortDesc ((mnbClasses m).zip
            ((mnbScores m x).map (fun s => s / (mnbScores m x).sum))) :=
          List.take_subset 3 _ hp
        have hp2 : p ∈ (mnbClasses m).zip
            ((mnbScores m x).map (fun s => s / (mnbScores m x).sum)) :=
          (List.perm_insertionSort _ _).mem_iff.mp hp1
        have hp3 : p.2 ∈ (mnbScores m x).map (fun s => s / (mnbScores m x).sum) := by
          rcases p with ⟨a, b⟩
          exact (List.of_mem_zip hp2).2
        exact le_maxR _ _ hp3

/-- Claim C6 witness: the tie-producing run satisfies the amended
properties. -/
theorem predict_top_predictions_spec_witness :
    ∃ probs : List ℝ,
      probs.length = (mnbClasses mnbTwo).length ∧
      predC6.top_predictions = (sortDesc ((mnbClasses mnbTwo).zip probs)).take 3 ∧
      predC6.confidence = maxR probs ∧
      predC6.top_predictions.length = min 3 (mnbClasses mnbTwo).length ∧
      predC6.top_predictions.Pairwise (fun a b => b.2 ≤ a.2) ∧
      predC6.top_predictions.Pairwise (fun a b =>
        a.2 = b.2 → (mnbClasses mnbTwo).indexOf a.1 < (mnbClasses mnbTwo).indexOf b.1) ∧
      ∀ p ∈ predC6.top_predictions, p.2 ≤ predC6.confidence :=
  predict_top_predictions_spec stTwo (some [eWork]) predC6 stTwoAfter mnbTwo
    (by decide) (by decide) predict_stTwo_eval

/-- Claim C6 (counterexample): a reachable prediction holds a probability tie
(`Study` and `Work` both at 1/2) in which `Study` appears **before** `Work`,
although `Work` comes earlier in the fixed category-set ordering
(Sleep, Work, Study, …): the code breaks ties by position in sklearn's
lexicographically sorted `classes_`, not by the fixed ordering. -/
theorem predict_tie_break_counterexample :
    (predict_next_entry stTwo (some [eWork])).1 = .ok predC6 ∧
    predC6.top_predictions.take 2 = [("Study", (1 : ℝ) / 2), ("Work", (1 : ℝ) / 2)] ∧
    all_classes.indexOf "Work" < all_classes.indexOf "Study" := by
  refine ⟨by rw [predict_stTwo_eval], by norm_num [predC6], by decide⟩

end RPred
